import Mathlib

/-!
Shallow embedding of the chat-relay broker in `src/bin/main.rs` and
`src/bin/main2.rs`: the client registry (a `HashMap<String, Sender>`),
the router (`route_message`), the system announcer (`broadcast_system`),
the token-to-identity mapping (`extract_username_from_message` /
`extract_username`), and the per-connection session lifecycle
(authentication, read loop, writer/reader teardown).

Modelling conventions:
* An outbound handle (`mpsc::UnboundedSender<String>`) is identified by a
  `Nat`; enqueuing onto a handle is recorded as a `Send` pair.  The wire
  codec (`serde_json`) is an external collaborator, so a payload is
  recorded as the `ServerMessage` value itself rather than its JSON text;
  serialization is applied pointwise at the wire boundary and does not
  affect which handles receive which message.
* The shared `HashMap` is embedded as an association list with unique
  keys; `lookupReg`/`insertReg`/`eraseReg` embed `get`/`insert`/`remove`.
* Iteration order of `HashMap::iter`/`values` is unspecified in Rust; the
  association-list order stands in for one arbitrary iteration order.
-/

set_option autoImplicit false

namespace Push

/-- A handle identifies one session's outbound queue
(`mpsc::UnboundedSender<String>` in the source). -/
abbrev Handle := Nat

/-- The client registry: the `HashMap<String, UnboundedSender<String>>`
behind `type Clients` in both binaries, embedded as an association list
whose keys are unique in every reachable state. -/
abbrev Registry := List (String × Handle)

/-- `struct ChatMessage { to: Option<String>, content: String }` —
one decoded inbound frame (both binaries). -/
structure ChatMessage where
  «to» : Option String
  content : String
deriving DecidableEq

/-- `struct ServerMessage { from: String, to: Option<String>, content: String }`
— the routed outbound message (both binaries).  Lean reserves `from`, so the
field keeps the source name via the escaped identifier. -/
structure ServerMessage where
  «from» : String
  «to» : Option String
  content : String
deriving DecidableEq

/-- One enqueue effect: `tx.send(payload)` onto the handle `tx`. -/
abbrev Send := Handle × ServerMessage

/-- `clients_guard.get(key)`: first (only, keys being unique) entry with
this key. -/
def lookupReg (k : String) : Registry → Option Handle
  | [] => none
  | (k', v) :: rest => if k' = k then some v else lookupReg k rest

/-- `clients.insert(key, tx)`: replace the entry for `key` if present,
else append. -/
def insertReg (k : String) (v : Handle) : Registry → Registry
  | [] => [(k, v)]
  | (k', v') :: rest =>
      if k' = k then (k, v) :: rest else (k', v') :: insertReg k v rest

/-- `clients.remove(key)`: drop the entry for `key` (on a unique-key list,
filtering and single removal coincide). -/
def eraseReg (k : String) (reg : Registry) : Registry :=
  reg.filter (fun e => e.1 ≠ k)

/-- The registry's key set, in iteration order. -/
def keys (reg : Registry) : List String :=
  reg.map Prod.fst

/-- The fixed credential table shared by `extract_username_from_message`
(main.rs, lines 137-142) and `extract_username` (main2.rs, lines 203-208):
`match token { "token-alice" => "alice", "token-bob" => "bob",
"token-charlie" => "charlie", _ => None }`. -/
def resolveToken (token : String) : Option String :=
  if token = "token-alice" then some "alice"
  else if token = "token-bob" then some "bob"
  else if token = "token-charlie" then some "charlie"
  else none

/-- `extract_username(req)` of main2.rs (lines 193-209): read the
`Authorization` header (`none` models a missing or non-ASCII header),
require the `"Bearer "` scheme, and resolve the remaining token.  The
byte slice `&auth[7..]` is embedded as dropping the seven characters of
the ASCII scheme string. -/
def extract_username (auth : Option String) : Option String :=
  match auth with
  | none => none
  | some a =>
      if a.data.take 7 = "Bearer ".data then resolveToken (String.mk (a.data.drop 7))
      else none

/-- `route_message` of main.rs (lines 144-162).  The source only calls
`get` and `iter` on the locked map, so the registry component of the
result is the registry the call received; the second component lists the
enqueues, in iteration order.  `to = Some(target)`: enqueue onto the
target's handle if registered, else nothing.  `to = None`: enqueue onto
every handle whose identity differs from `msg.from`. -/
def routeMessageSt (reg : Registry) (msg : ServerMessage) : Registry × List Send :=
  match msg.«to» with
  | some target =>
      match lookupReg target reg with
      | some tx => (reg, [(tx, msg)])
      | none => (reg, [])
  | none =>
      (reg, (reg.filter (fun e => e.1 ≠ msg.«from»)).map (fun e => (e.2, msg)))

/-- The `ServerMessage` that main2.rs's `route_message` sends back to the
sender when the directed target is not registered (lines 158-162). -/
def userNotFound (target sender : String) : ServerMessage :=
  { «from» := "SYSTEM", «to» := some sender,
    content := "User \x27" ++ target ++ "\x27 not found or offline" }

/-- `route_message` of main2.rs (lines 147-176).  Identical to main.rs's
router except in the directed-miss branch: when `target` is absent, it
looks up the sender and, if registered, enqueues a `userNotFound` notice
onto the sender's own handle. -/
def routeMessage2St (reg : Registry) (msg : ServerMessage) : Registry × List Send :=
  match msg.«to» with
  | some target =>
      match lookupReg target reg with
      | some tx => (reg, [(tx, msg)])
      | none =>
          match lookupReg msg.«from» reg with
          | some tx => (reg, [(tx, userNotFound target msg.«from»)])
          | none => (reg, [])
  | none =>
      (reg, (reg.filter (fun e => e.1 ≠ msg.«from»)).map (fun e => (e.2, msg)))

/-- `broadcast_system` of main.rs (lines 164-175) and main2.rs (lines
178-191): build a `ServerMessage` with `from = "SYSTEM"`, `to = None`,
`content = text` and enqueue it onto every value of the map, with no
filtering. -/
def broadcastSystemSt (reg : Registry) (text : String) : Registry × List Send :=
  let msg : ServerMessage := { «from» := "SYSTEM", «to» := none, content := text }
  (reg, reg.map (fun e => (e.2, msg)))

/-- What `read.next().await` produced for the authentication step of
main.rs (lines 47-80): stream end (`None`), a transport error
(`Some(Err(_))`), a non-text frame, or a text frame with its payload. -/
inductive AuthFrame
  | streamEnd
  | transportErr
  | nonText
  | text (s : String)
deriving DecidableEq

/-- Control notices the session writes directly during authentication:
`{"type": "auth_success"}` and `{"type": "auth_failed"}`. -/
inductive Notice
  | authSuccess
  | authFailed
deriving DecidableEq

/-- The authentication-and-registration prefix of a main.rs session
(lines 47-86), parameterized by the credential extraction
`extract_username_from_message` (whose JSON parsing belongs to the
external wire codec).  Returns the registry after this prefix, the
notices written to the client, and the authenticated identity.  Only a
text frame whose credential resolves leads to `clients.insert`; on a
rejected credential the session sends `auth_failed` and returns; on any
other first read result it returns silently.  (The subsequent
joined-the-chat broadcast is `broadcastSystemSt` and changes no registry
entry.) -/
def sessionAuth (extract : String → Option String) (frame : AuthFrame)
    (reg : Registry) (h : Handle) : Registry × List Notice × Option String :=
  match frame with
  | AuthFrame.text s =>
      match extract s with
      | some user => (insertReg user h reg, [Notice.authSuccess], some user)
      | none => (reg, [Notice.authFailed], none)
  | _ => (reg, [], none)

/-- The handshake-and-registration prefix of a main2.rs session (lines
40-80).  The `accept_hdr_async` callback rejects the connection (HTTP
401, no insertion) unless `extract_username(req)` succeeds; on success
the extracted identity is discarded and the registered identity is the
negotiated websocket subprotocol, defaulting to `"anonymous"`
(`ws.get_ref().protocol() ... .unwrap_or_else(|| "anonymous")`).
Returns the registry after this prefix and the registered identity. -/
def main2Session (auth : Option String) (proto : Option String)
    (reg : Registry) (h : Handle) : Registry × Option String :=
  match extract_username auth with
  | some _ =>
      let user := proto.getD "anonymous"
      (insertReg user h reg, some user)
  | none => (reg, none)

/-- One result of `read.next().await` inside the read loop: a frame
(text or not) or a transport error.  The end of the input list models
`None` (stream end). -/
inductive InFrame
  | ok (isText : Bool) (payload : String)
  | err
deriving DecidableEq

/-- The read duty of main.rs (lines 103-121), parameterized by the wire
codec `serde_json::from_str::<ChatMessage>`.  `while let Some(Ok(msg))`
ends the loop at a transport error or stream end.  For each text frame:
on decode success, build the `ServerMessage` and pass it to the router;
on decode failure, log and continue.  Returns the messages passed to
`route_message`, in order. -/
def readLoop (decode : String → Except String ChatMessage) (user : String) :
    List InFrame → List ServerMessage
  | [] => []
  | InFrame.err :: _ => []
  | InFrame.ok isText s :: rest =>
      if isText then
        match decode s with
        | Except.ok parsed =>
            { «from» := user, «to» := parsed.«to», content := parsed.content }
              :: readLoop decode user rest
        | Except.error _ => readLoop decode user rest
      else readLoop decode user rest

/-- The `Invalid message format` notice main2.rs's read loop sends back
to its own client on a decode failure (lines 118-127). -/
def invalidFormat (user e : String) : ServerMessage :=
  { «from» := "SYSTEM", «to» := some user,
    content := "Invalid message format: " ++ e }

/-- The read duty of main2.rs (lines 103-134): same loop as main.rs's,
except that a decode failure additionally sends an `invalidFormat`
notice back onto the sender's own handle.  Returns the messages passed
to `route_message` and the notices sent back, each in order. -/
def readLoop2 (decode : String → Except String ChatMessage) (user : String) :
    List InFrame → List ServerMessage × List ServerMessage
  | [] => ([], [])
  | InFrame.err :: _ => ([], [])
  | InFrame.ok isText s :: rest =>
      if isText then
        match decode s with
        | Except.ok parsed =>
            let r := readLoop2 decode user rest
            ({ «from» := user, «to» := parsed.«to», content := parsed.content } :: r.1,
             r.2)
        | Except.error e =>
            let r := readLoop2 decode user rest
            (r.1, invalidFormat user e :: r.2)
      else readLoop2 decode user rest

/-- Registry effect of the read duty terminating.  In main.rs (lines
103-121) the reader task's body ends with no registry operation; in
main2.rs (lines 103-134) it ends with `drop(writer)`, which also touches
no registry entry. -/
def readerExitEffect (_user : String) (reg : Registry) : Registry :=
  reg

/-- Registry effect of the write duty terminating: both variants run
`clients.lock().await.remove(&username)` after the write loop (main.rs
line 97, main2.rs line 99). -/
def writerExitEffect (user : String) (reg : Registry) : Registry :=
  eraseReg user reg

/-- The registry immediately after the first of the two duties has
terminated (`readerFirst` selects which one that is). -/
def firstExitRegistry (user : String) (reg : Registry) (readerFirst : Bool) : Registry :=
  if readerFirst then readerExitEffect user reg else writerExitEffect user reg

/-- The teardown of a session (main.rs lines 91-124, main2.rs lines
88-140): the two duties terminate in either order, each applying its
registry effect; after `tokio::join!` the parent runs `broadcast_system`
once with the left-the-chat text.  Returns the final registry and the
enqueues of that single announcement. -/
def sessionTeardown (user : String) (reg : Registry) (readerFirst : Bool) :
    Registry × List Send :=
  let reg1 := firstExitRegistry user reg readerFirst
  let reg2 := if readerFirst then writerExitEffect user reg1 else readerExitEffect user reg1
  (reg2, (broadcastSystemSt reg2 (user ++ " left the chat")).2)

/-! ## Registry lemmas -/

theorem lookupReg_eraseReg_self (k : String) (reg : Registry) :
    lookupReg k (eraseReg k reg) = none := by
  induction reg with
  | nil => rfl
  | cons e rest ih =>
    rcases e with ⟨k', v⟩
    by_cases hk : k' = k
    · simpa [eraseReg, List.filter_cons, hk] using ih
    · simpa [eraseReg, List.filter_cons, hk, lookupReg] using ih

theorem lookupReg_eraseReg_ne {b k : String} (reg : Registry) (hbk : b ≠ k) :
    lookupReg b (eraseReg k reg) = lookupReg b reg := by
  have hkb : ¬k = b := fun h => hbk h.symm
  induction reg with
  | nil => rfl
  | cons e rest ih =>
    rcases e with ⟨k', v⟩
    by_cases hk : k' = k
    · subst hk
      simpa [eraseReg, List.filter_cons, lookupReg, hkb] using ih
    · by_cases hb : k' = b
      · subst hb
        simp [eraseReg, List.filter_cons, hk, lookupReg, hbk]
      · simpa [eraseReg, List.filter_cons, hk, lookupReg, hb] using ih

theorem filter_key_eq_nil {a : String} (reg : Registry) (ha : a ∉ keys reg) :
    reg.filter (fun e => e.1 = a) = [] := by
  induction reg with
  | nil => rfl
  | cons e rest ih =>
    simp only [keys, List.map_cons, List.mem_cons] at ha
    push_neg at ha
    have h1 : ¬e.1 = a := fun h => ha.1 h.symm
    simp [List.filter_cons, h1, ih (by simpa [keys] using ha.2)]

theorem lookupReg_insertReg_self (a : String) (h : Handle) (reg : Registry) :
    lookupReg a (insertReg a h reg) = some h := by
  induction reg with
  | nil => simp [insertReg, lookupReg]
  | cons e rest ih =>
    rcases e with ⟨k, v⟩
    by_cases hk : k = a
    · simp [insertReg, hk, lookupReg]
    · simp [insertReg, hk, lookupReg, ih]

theorem lookupReg_insertReg_ne {b a : String} (h : Handle) (reg : Registry)
    (hba : b ≠ a) :
    lookupReg b (insertReg a h reg) = lookupReg b reg := by
  have hab : ¬a = b := fun h => hba h.symm
  induction reg with
  | nil => simp [insertReg, lookupReg, hab]
  | cons e rest ih =>
    rcases e with ⟨k, v⟩
    by_cases hk : k = a
    · subst hk
      simp [insertReg, lookupReg, hab]
    · by_cases hb : k = b
      · subst hb
        simp [insertReg, hk, lookupReg, hba]
      · simp [insertReg, hk, lookupReg, hb, ih]

theorem filter_insertReg (a : String) (h2 : Handle) (reg : Registry)
    (hnd : (keys reg).Nodup) (hmem : ∃ h1, lookupReg a reg = some h1) :
    (insertReg a h2 reg).filter (fun e => e.1 = a) = [(a, h2)] := by
  induction reg with
  | nil => simp [lookupReg] at hmem
  | cons e rest ih =>
    rcases e with ⟨k, v⟩
    simp only [keys, List.map_cons, List.nodup_cons] at hnd
    by_cases hk : k = a
    · subst hk
      have : rest.filter (fun e => e.1 = k) = [] :=
        filter_key_eq_nil rest (by simpa [keys] using hnd.1)
      simp [insertReg, List.filter_cons, this]
    · have hmem' : ∃ h1, lookupReg a rest = some h1 := by
        simpa [lookupReg, hk] using hmem
      simp [insertReg, hk, List.filter_cons, ih (by simpa [keys] using hnd.2) hmem']

/-! ## Claim theorems -/

/-- C5: the credential table maps exactly `"token-alice"`, `"token-bob"`,
`"token-charlie"` to `"alice"`, `"bob"`, `"charlie"` respectively, and
rejects (returns `none` for) every other token string. -/
theorem resolveToken_spec :
    resolveToken "token-alice" = some "alice"
    ∧ resolveToken "token-bob" = some "bob"
    ∧ resolveToken "token-charlie" = some "charlie"
    ∧ ∀ s : String, s ≠ "token-alice" → s ≠ "token-bob" → s ≠ "token-charlie" →
        resolveToken s = none := by
  refine ⟨by decide, by decide, by decide, ?_⟩
  intro s h1 h2 h3
  simp [resolveToken, h1, h2, h3]

/-- Witness for C5 at the concrete rejected token `"not-a-token"`. -/
theorem resolveToken_spec_witness : resolveToken "not-a-token" = none :=
  resolveToken_spec.2.2.2 "not-a-token" (by decide) (by decide) (by decide)

/-- C6: inserting `(A, h2)` over an existing entry `(A, h1)` leaves exactly
one entry for `A`, bound to `h2` (last-write-wins), and leaves every other
identity's lookup unchanged. -/
theorem insertReg_last_write_wins (reg : Registry) (A : String) (h1 h2 : Handle)
    (hnd : (keys reg).Nodup) (hmem : lookupReg A reg = some h1) :
    (insertReg A h2 reg).filter (fun e => e.1 = A) = [(A, h2)]
    ∧ lookupReg A (insertReg A h2 reg) = some h2
    ∧ ∀ B, B ≠ A → lookupReg B (insertReg A h2 reg) = lookupReg B reg :=
  ⟨filter_insertReg A h2 reg hnd ⟨h1, hmem⟩,
   lookupReg_insertReg_self A h2 reg,
   fun _ hBA => lookupReg_insertReg_ne h2 reg hBA⟩

/-- Witness for C6: re-registering `"alice"` with handle 9 over handle 5. -/
theorem insertReg_last_write_wins_witness :
    lookupReg "alice" (insertReg "alice" 9 [("alice", 5), ("bob", 7)]) = some 9
    ∧ lookupReg "bob" (insertReg "alice" 9 [("alice", 5), ("bob", 7)])
        = lookupReg "bob" [("alice", 5), ("bob", 7)] :=
  ⟨(insertReg_last_write_wins [("alice", 5), ("bob", 7)] "alice" 5 9
      (by decide) (by decide)).2.1,
   (insertReg_last_write_wins [("alice", 5), ("bob", 7)] "alice" 5 9
      (by decide) (by decide)).2.2 "bob" (by decide)⟩

/-- C9: both variants' `route_message` leave the registry unchanged —
delivery inserts, removes and rebinds nothing. -/
theorem routeMessage_preserves_registry (reg : Registry) (msg : ServerMessage) :
    (routeMessageSt reg msg).1 = reg ∧ (routeMessage2St reg msg).1 = reg := by
  rcases msg with ⟨f, t, c⟩
  cases t with
  | none => exact ⟨rfl, rfl⟩
  | some target =>
    cases htarget : lookupReg target reg with
    | some tx => simp [routeMessageSt, routeMessage2St, htarget]
    | none =>
      cases hfrom : lookupReg f reg with
      | some tx => simp [routeMessageSt, routeMessage2St, htarget, hfrom]
      | none => simp [routeMessageSt, routeMessage2St, htarget, hfrom]

/-- C1: when `msg.to` is `none`, both variants' `route_message` enqueue
the message onto the handle of every registered identity other than
`msg.from`, and never onto the sender's own handle.  The injectivity
hypothesis states the program invariant that distinct identities hold
distinct handles (each session creates a fresh channel). -/
theorem route_broadcast (reg : Registry) (msg : ServerMessage)
    (hto : msg.«to» = none)
    (hinj : ∀ p ∈ reg, ∀ q ∈ reg, p.2 = q.2 → p.1 = q.1) :
    (∀ p ∈ reg, p.1 ≠ msg.«from» → (p.2, msg) ∈ (routeMessageSt reg msg).2)
    ∧ (∀ h : Handle, (msg.«from», h) ∈ reg →
        ∀ pay, (h, pay) ∉ (routeMessageSt reg msg).2)
    ∧ (routeMessage2St reg msg).2 = (routeMessageSt reg msg).2 := by
  obtain ⟨f, t, c⟩ := msg
  obtain rfl : t = none := hto
  refine ⟨?_, ?_, rfl⟩
  · intro p hp hne
    simp only [routeMessageSt]
    exact List.mem_map.mpr ⟨p, List.mem_filter.mpr ⟨hp, by simpa using hne⟩, rfl⟩
  · intro h hmem pay hcon
    simp only [routeMessageSt] at hcon
    rcases List.mem_map.mp hcon with ⟨q, hq, heq⟩
    rcases List.mem_filter.mp hq with ⟨hqreg, hqne⟩
    have hq2 : q.2 = h := congrArg Prod.fst heq
    have hq1 : q.1 = f := hinj q hqreg (f, h) hmem hq2
    exact absurd hq1 (by simpa using hqne)

/-- Witness for C1: identities alice, bob, charlie; a broadcast from
alice reaches bob's handle 1 and never alice's handle 0, and both
variants produce the same enqueues. -/
theorem route_broadcast_witness :
    ((1 : Handle), ({ «from» := "alice", «to» := none, content := "hi" } : ServerMessage))
      ∈ (routeMessageSt [("alice", 0), ("bob", 1), ("charlie", 2)]
          { «from» := "alice", «to» := none, content := "hi" }).2
    ∧ ((0 : Handle), ({ «from» := "alice", «to» := none, content := "hi" } : ServerMessage))
      ∉ (routeMessageSt [("alice", 0), ("bob", 1), ("charlie", 2)]
          { «from» := "alice", «to» := none, content := "hi" }).2
    ∧ (routeMessage2St [("alice", 0), ("bob", 1), ("charlie", 2)]
          { «from» := "alice", «to» := none, content := "hi" }).2
      = (routeMessageSt [("alice", 0), ("bob", 1), ("charlie", 2)]
          { «from» := "alice", «to» := none, content := "hi" }).2 :=
  ⟨(route_broadcast [("alice", 0), ("bob", 1), ("charlie", 2)]
      { «from» := "alice", «to» := none, content := "hi" } rfl (by decide)).1
      ("bob", 1) (by decide) (by decide),
   (route_broadcast [("alice", 0), ("bob", 1), ("charlie", 2)]
      { «from» := "alice", «to» := none, content := "hi" } rfl (by decide)).2.1
      0 (by decide) _,
   (route_broadcast [("alice", 0), ("bob", 1), ("charlie", 2)]
      { «from» := "alice", «to» := none, content := "hi" } rfl (by decide)).2.2⟩

/-- C2 counterexample: in main2.rs, a directed message to an absent
target is not silently dropped with no enqueue — with `alice` registered
on handle 0, `route_message` enqueues a SYSTEM `User not found` notice
onto alice's own handle. -/
theorem route_directed_miss_cex :
    (routeMessage2St [("alice", 0)]
        { «from» := "alice", «to» := some "nonexistent", content := "hi" }).2
      = [(0, userNotFound "nonexistent" "alice")]
    ∧ (routeMessage2St [("alice", 0)]
        { «from» := "alice", «to» := some "nonexistent", content := "hi" }).2 ≠ [] :=
  ⟨by decide, by decide⟩

/-- C2 (amended): when `msg.to = some target` and `target` is registered,
both variants enqueue the message only onto the target's handle; when
`target` is absent, main.rs's router enqueues nothing, and main2.rs's
router never enqueues the original message — anything it enqueues is the
SYSTEM `userNotFound` notice, onto the sender's own registered handle.
Neither raises an error. -/
theorem route_directed (reg : Registry) (msg : ServerMessage) (target : String)
    (hto : msg.«to» = some target) :
    (∀ h, lookupReg target reg = some h →
        (routeMessageSt reg msg).2 = [(h, msg)]
        ∧ (routeMessage2St reg msg).2 = [(h, msg)])
    ∧ (lookupReg target reg = none →
        (routeMessageSt reg msg).2 = []
        ∧ ∀ p ∈ (routeMessage2St reg msg).2,
            lookupReg msg.«from» reg = some p.1
            ∧ p.2 = userNotFound target msg.«from») := by
  obtain ⟨f, t, c⟩ := msg
  obtain rfl : t = some target := hto
  constructor
  · intro h hh
    exact ⟨by simp [routeMessageSt, hh], by simp [routeMessage2St, hh]⟩
  · intro hnone
    refine ⟨by simp [routeMessageSt, hnone], ?_⟩
    intro p hp
    cases hfrom : lookupReg f reg with
    | some tx =>
      simp only [routeMessage2St, hnone, hfrom] at hp
      simp only [List.mem_singleton] at hp
      subst hp
      exact ⟨rfl, rfl⟩
    | none =>
      simp [routeMessage2St, hnone, hfrom] at hp

/-- Witness for C2 (amended): with alice and bob registered, a directed
message from alice to bob lands only on bob's handle 1, in both
variants; and no enqueue at all happens in main.rs for a missing
target. -/
theorem route_directed_witness :
    ((routeMessageSt [("alice", 0), ("bob", 1)]
        { «from» := "alice", «to» := some "bob", content := "hi" }).2
      = [(1, { «from» := "alice", «to» := some "bob", content := "hi" })]
    ∧ (routeMessage2St [("alice", 0), ("bob", 1)]
        { «from» := "alice", «to» := some "bob", content := "hi" }).2
      = [(1, { «from» := "alice", «to» := some "bob", content := "hi" })])
    ∧ (routeMessageSt [("alice", 0), ("bob", 1)]
        { «from» := "alice", «to» := some "nope", content := "hi" }).2 = [] :=
  ⟨(route_directed [("alice", 0), ("bob", 1)]
      { «from» := "alice", «to» := some "bob", content := "hi" } "bob" rfl).1
      1 (by decide),
   ((route_directed [("alice", 0), ("bob", 1)]
      { «from» := "alice", «to» := some "nope", content := "hi" } "nope" rfl).2
      (by decide)).1⟩

/-- C8: `broadcast_system text` builds the SYSTEM message with `to = none`
and, on any registry not containing the key `"SYSTEM"`, has exactly the
effect of `route_message` applied to that message: the same registry and
the same enqueues. -/
theorem broadcastSystem_refines_route (reg : Registry) (text : String)
    (hsys : "SYSTEM" ∉ keys reg) :
    broadcastSystemSt reg text
      = routeMessageSt reg { «from» := "SYSTEM", «to» := none, content := text } := by
  have hfil : reg.filter (fun e => !decide (e.1 = "SYSTEM")) = reg := by
    apply List.filter_eq_self.mpr
    intro a ha
    have hne : a.1 ≠ "SYSTEM" := by
      intro h
      exact hsys (by simpa [keys, h] using List.mem_map_of_mem Prod.fst ha)
    simp [hne]
  simp [broadcastSystemSt, routeMessageSt, hfil]

/-- Witness for C8 on the registry with alice and bob. -/
theorem broadcastSystem_refines_route_witness :
    broadcastSystemSt [("alice", 0), ("bob", 1)] "hello"
      = routeMessageSt [("alice", 0), ("bob", 1)]
          { «from» := "SYSTEM", «to» := none, content := "hello" } :=
  broadcastSystem_refines_route [("alice", 0), ("bob", 1)] "hello" (by decide)

/-- C3: whenever authentication fails — no first frame, a transport
error, a non-text frame, or a text frame whose credential the resolver
rejects — the main.rs session leaves the registry untouched, registers
nobody, and at most sends `auth_failed` (never `auth_success`); likewise
a main2.rs handshake whose `extract_username` rejects inserts no
entry. -/
theorem auth_failure_no_registry_entry (extract : String → Option String)
    (frame : AuthFrame) (auth proto : Option String) (reg : Registry) (h : Handle)
    (hfail : ∀ s, frame = AuthFrame.text s → extract s = none)
    (hfail2 : extract_username auth = none) :
    ((sessionAuth extract frame reg h).1 = reg
      ∧ (sessionAuth extract frame reg h).2.2 = none
      ∧ Notice.authSuccess ∉ (sessionAuth extract frame reg h).2.1)
    ∧ main2Session auth proto reg h = (reg, none) := by
  constructor
  · cases frame with
    | text s =>
      have hs := hfail s rfl
      simp [sessionAuth, hs]
    | streamEnd => simp [sessionAuth]
    | transportErr => simp [sessionAuth]
    | nonText => simp [sessionAuth]
  · simp [main2Session, hfail2]

/-- Witness for C3: a rejected text credential in main.rs and a rejected
bearer token in main2.rs, starting from a registry holding bob. -/
theorem auth_failure_no_registry_entry_witness :
    ((sessionAuth (fun _ => none) (AuthFrame.text "x") [("bob", 1)] 0).1 = [("bob", 1)]
      ∧ (sessionAuth (fun _ => none) (AuthFrame.text "x") [("bob", 1)] 0).2.2 = none
      ∧ Notice.authSuccess ∉ (sessionAuth (fun _ => none) (AuthFrame.text "x") [("bob", 1)] 0).2.1)
    ∧ main2Session (some "Bearer nope") none [("bob", 1)] 0 = ([("bob", 1)], none) :=
  auth_failure_no_registry_entry (fun _ => none) (AuthFrame.text "x")
    (some "Bearer nope") none [("bob", 1)] 0 (fun _ _ => rfl) (by decide)

/-- C4 counterexample: the claim says the registry entry is removed by
whichever duty terminates first, but when the read duty terminates first
its exit performs no removal — with alice registered on handle 0, the
registry after the first (reader) exit still maps alice to 0. -/
theorem teardown_reader_first_cex :
    firstExitRegistry "alice" [("alice", 0)] true = [("alice", 0)]
    ∧ lookupReg "alice" (firstExitRegistry "alice" [("alice", 0)] true) = some 0 :=
  ⟨rfl, by decide⟩

/-- C4 (amended): the registry entry is removed exactly once, by the
write duty when it terminates (the read duty's exit removes nothing);
after both duties have ended, in either termination order, the identity
is absent, every other identity's entry is unchanged, and exactly the
one left-the-chat announcement has been broadcast. -/
theorem sessionTeardown_spec (user : String) (reg : Registry) (readerFirst : Bool) :
    (sessionTeardown user reg readerFirst).1 = eraseReg user reg
    ∧ lookupReg user (sessionTeardown user reg readerFirst).1 = none
    ∧ (∀ B, B ≠ user → lookupReg B (sessionTeardown user reg readerFirst).1 = lookupReg B reg)
    ∧ (sessionTeardown user reg readerFirst).2
        = (broadcastSystemSt (eraseReg user reg) (user ++ " left the chat")).2 := by
  have h1 : (sessionTeardown user reg readerFirst).1 = eraseReg user reg := by
    cases readerFirst <;>
      simp [sessionTeardown, firstExitRegistry, readerExitEffect, writerExitEffect]
  refine ⟨h1, ?_, ?_, ?_⟩
  · rw [h1]; exact lookupReg_eraseReg_self user reg
  · intro B hB; rw [h1]; exact lookupReg_eraseReg_ne reg hB
  · cases readerFirst <;>
      simp [sessionTeardown, firstExitRegistry, readerExitEffect, writerExitEffect,
        broadcastSystemSt]

/-- Witness for C4 (amended): alice's session tears down reader-first
from a registry holding alice and bob; alice ends up absent, bob's entry
survives, and the single announcement goes out over the shrunken
registry. -/
theorem sessionTeardown_spec_witness :
    (sessionTeardown "alice" [("alice", 0), ("bob", 1)] true).1
        = eraseReg "alice" [("alice", 0), ("bob", 1)]
    ∧ lookupReg "alice" (sessionTeardown "alice" [("alice", 0), ("bob", 1)] true).1 = none
    ∧ lookupReg "bob" (sessionTeardown "alice" [("alice", 0), ("bob", 1)] true).1
        = lookupReg "bob" [("alice", 0), ("bob", 1)]
    ∧ (sessionTeardown "alice" [("alice", 0), ("bob", 1)] true).2
        = (broadcastSystemSt (eraseReg "alice" [("alice", 0), ("bob", 1)])
            ("alice" ++ " left the chat")).2 :=
  ⟨(sessionTeardown_spec "alice" [("alice", 0), ("bob", 1)] true).1,
   (sessionTeardown_spec "alice" [("alice", 0), ("bob", 1)] true).2.1,
   (sessionTeardown_spec "alice" [("alice", 0), ("bob", 1)] true).2.2.1 "bob" (by decide),
   (sessionTeardown_spec "alice" [("alice", 0), ("bob", 1)] true).2.2.2⟩

/-- C7: a text frame that fails to decode only drops that one message —
the read duty of either variant routes exactly the same messages as if
the malformed frame were absent, so every later well-formed frame is
still routed. -/
theorem readLoop_malformed_skip (decode : String → Except String ChatMessage)
    (user : String) (pre post : List InFrame) (s e : String)
    (hpre : InFrame.err ∉ pre) (hbad : decode s = Except.error e) :
    readLoop decode user (pre ++ InFrame.ok true s :: post)
        = readLoop decode user (pre ++ post)
    ∧ (readLoop2 decode user (pre ++ InFrame.ok true s :: post)).1
        = (readLoop2 decode user (pre ++ post)).1 := by
  have hgen : ∀ pre0 : List InFrame, InFrame.err ∉ pre0 →
      readLoop decode user (pre0 ++ InFrame.ok true s :: post)
          = readLoop decode user (pre0 ++ post)
      ∧ (readLoop2 decode user (pre0 ++ InFrame.ok true s :: post)).1
          = (readLoop2 decode user (pre0 ++ post)).1 := by
    intro pre0
    induction pre0 with
    | nil =>
      intro _
      exact ⟨by simp [readLoop, hbad], by simp [readLoop2, hbad]⟩
    | cons fr rest ih =>
      intro hpre0
      have hfr : fr ≠ InFrame.err := fun hh => hpre0 (by simp [hh])
      have hrest : InFrame.err ∉ rest := fun hh => hpre0 (List.mem_cons_of_mem _ hh)
      obtain ⟨ih1, ih2⟩ := ih hrest
      cases fr with
      | err => exact absurd rfl hfr
      | ok isText p =>
        cases isText with
        | false =>
          exact ⟨by simpa [readLoop] using ih1, by simpa [readLoop2] using ih2⟩
        | true =>
          cases hdec : decode p with
          | ok parsed =>
            exact ⟨by simp [readLoop, hdec, ih1], by simp [readLoop2, hdec, ih2]⟩
          | error e2 =>
            exact ⟨by simp [readLoop, hdec, ih1], by simp [readLoop2, hdec, ih2]⟩
  exact hgen pre hpre

/-- Witness for C7: one good frame, one malformed frame, one good frame;
the routed messages equal those of the stream without the malformed
frame, in both variants. -/
theorem readLoop_malformed_skip_witness :
    readLoop
        (fun t => if t = "good" then Except.ok { «to» := some "bob", content := t }
          else Except.error "bad")
        "alice"
        [InFrame.ok true "good", InFrame.ok true "zzz", InFrame.ok true "good"]
      = readLoop
          (fun t => if t = "good" then Except.ok { «to» := some "bob", content := t }
            else Except.error "bad")
          "alice" [InFrame.ok true "good", InFrame.ok true "good"]
    ∧ (readLoop2
        (fun t => if t = "good" then Except.ok { «to» := some "bob", content := t }
          else Except.error "bad")
        "alice"
        [InFrame.ok true "good", InFrame.ok true "zzz", InFrame.ok true "good"]).1
      = (readLoop2
          (fun t => if t = "good" then Except.ok { «to» := some "bob", content := t }
            else Except.error "bad")
          "alice" [InFrame.ok true "good", InFrame.ok true "good"]).1 :=
  readLoop_malformed_skip
    (fun t => if t = "good" then Except.ok { «to» := some "bob", content := t }
      else Except.error "bad")
    "alice" [InFrame.ok true "good"] [InFrame.ok true "good"] "zzz" "bad"
    (by decide) rfl

/-- C10: after a successful main2.rs handshake, the registered identity
is the negotiated subprotocol with default `"anonymous"` — independent
of the credential the resolver accepted — so every connection without a
subprotocol registers as `"anonymous"`. -/
theorem main2_registers_protocol_identity (auth proto : Option String)
    (reg : Registry) (h : Handle) (hacc : (extract_username auth).isSome) :
    (main2Session auth proto reg h).2 = some (proto.getD "anonymous")
    ∧ (main2Session auth proto reg h).1 = insertReg (proto.getD "anonymous") h reg
    ∧ (proto = none → (main2Session auth proto reg h).2 = some "anonymous") := by
  cases hext : extract_username auth with
  | none => rw [hext] at hacc; simp at hacc
  | some u =>
    refine ⟨by simp [main2Session, hext], by simp [main2Session, hext], ?_⟩
    rintro rfl
    simp [main2Session, hext]

/-- Witness for C10: alice's valid token with no subprotocol registers
the identity `"anonymous"`, not `"alice"`. -/
theorem main2_registers_protocol_identity_witness :
    (main2Session (some "Bearer token-alice") none [] 0).2 = some "anonymous"
    ∧ (main2Session (some "Bearer token-alice") none [] 0).1 = insertReg "anonymous" 0 [] :=
  ⟨(main2_registers_protocol_identity (some "Bearer token-alice") none [] 0
      (by decide)).2.2 rfl,
   (main2_registers_protocol_identity (some "Bearer token-alice") none [] 0
      (by decide)).2.1⟩

end Push
